import Mathlib

/-!
Verification of the fontscanner repository's metadata extractor, scan
aggregator, cache and query facade, as a shallow embedding of
`src/fontScanner.ts`.

Modelling conventions:
* A byte buffer is a `List Nat` (each element a byte 0..255); out-of-range
  reads in the source are guarded by the same length checks the source
  performs, so the `getD _ 0` default is never observable on executed paths.
* A JavaScript string is a `List Nat` of UTF-16 code units (`Str`).
* `toLowerCase` is modelled on the ASCII range (the only range the source
  compares against); Node `path.extname` / `path.basename` are modelled for
  POSIX paths that do not end in a separator, which covers every candidate
  path the directory walk can produce (they all end in a font extension).
* Timestamps are `Int` milliseconds; `Date.now()` values are parameters.
* Filesystem access is abstracted as `FileAccess`: either an error kind or
  a `stat` result plus the file's bytes.
-/

/-- JavaScript string as a list of UTF-16 code units. -/
abbrev Str := List Nat

/-- Model of `buffer[i]`, with an irrelevant default outside the guarded range. -/
def byteAt (buf : List Nat) (i : Nat) : Nat := buf.getD i 0

/-- Model of `buffer.readUInt16BE(i)`. -/
def readU16BE (buf : List Nat) (i : Nat) : Nat :=
  byteAt buf i * 256 + byteAt buf (i + 1)

/-- Model of `buffer.readUInt32BE(i)`. -/
def readU32BE (buf : List Nat) (i : Nat) : Nat :=
  ((byteAt buf i * 256 + byteAt buf (i + 1)) * 256 + byteAt buf (i + 2)) * 256 + byteAt buf (i + 3)

/-- Model of `buffer.slice(a, b)` for `a ≤ b ≤ length` (clamping like Node). -/
def sliceB (buf : List Nat) (a b : Nat) : List Nat := (buf.drop a).take (b - a)

/-- Model of `decodeUtf16BE`: pair consecutive bytes big-endian, skip 0x0000 units,
a trailing odd byte is dropped (loop condition `i < length - 1`). -/
def decodeUtf16BE : List Nat → Str
  | b1 :: b2 :: rest =>
    let c := b1 * 256 + b2
    if c = 0 then decodeUtf16BE rest else c :: decodeUtf16BE rest
  | _ => []

/-- The JavaScript `String.prototype.trim` whitespace set (WhiteSpace and
LineTerminator code points). -/
def isJSWhitespaceCode (c : Nat) : Bool :=
  c == 9 || c == 10 || c == 11 || c == 12 || c == 13 || c == 32 || c == 160 ||
  c == 5760 || (8192 ≤ c && c ≤ 8202) || c == 8232 || c == 8233 || c == 8239 ||
  c == 8287 || c == 12288 || c == 65279

/-- Model of `s.trim()`. -/
def trimJS (s : Str) : Str :=
  ((s.dropWhile isJSWhitespaceCode).reverse.dropWhile isJSWhitespaceCode).reverse

/-- The `style` field's value space. -/
inductive Style where
  | normal
  | italic
  | oblique
deriving DecidableEq, Repr

/-- Shape of the decoder results as produced by the three table decoders: every
decoded field is optional; a field a decoder did not set is `none`. -/
structure FontMeta where
  name : Option Str := none
  family : Option Str := none
  version : Option Str := none
  copyright : Option Str := none
  weight : Option Nat := none
  style : Option Style := none
  isMonospace : Option Bool := none
deriving DecidableEq, Repr

/-- Property-wise override: a property present on `src` wins. -/
def orElseOpt {α : Type} (src base : Option α) : Option α :=
  match src with
  | some v => some v
  | none => base

/-- Model of `Object.assign(base, src)` on the decoder records: properties present
on `src` overwrite `base`, absent ones keep `base`. -/
def FontMeta.assign (base src : FontMeta) : FontMeta :=
  { name := orElseOpt src.name base.name
    family := orElseOpt src.family base.family
    version := orElseOpt src.version base.version
    copyright := orElseOpt src.copyright base.copyright
    weight := orElseOpt src.weight base.weight
    style := orElseOpt src.style base.style
    isMonospace := orElseOpt src.isMonospace base.isMonospace }

/-- Field `nameID` of name record `j`: u16 at `recordOffset + 6`. -/
def nameRecordID (buf : List Nat) (offset j : Nat) : Nat :=
  readU16BE buf (offset + 6 + j * 12 + 6)

/-- String length of name record `j`: u16 at `recordOffset + 8`. -/
def nameRecordLen (buf : List Nat) (offset j : Nat) : Nat :=
  readU16BE buf (offset + 6 + j * 12 + 8)

/-- String offset (within string storage) of name record `j`: u16 at
`recordOffset + 10`. -/
def nameRecordStrOff (buf : List Nat) (offset j : Nat) : Nat :=
  readU16BE buf (offset + 6 + j * 12 + 10)

/-- Model of the decoded record string:
`decodeUtf16BE(buffer.slice(start, start+len)).replace(/\x00/g, '').trim()`. -/
def decodedNameString (buf : List Nat) (start len : Nat) : Str :=
  trimJS ((decodeUtf16BE (sliceB buf start (start + len))).filter (fun c => c != 0))

/-- Body of one iteration of the name-record loop in `parseNameTable`:
bounds-check the string range, decode, and dispatch on `nameID`
(`1 → family`, `4 → name`, `5 → version`, `0 → copyright`), only when the
decoded string is non-empty. -/
def applyNameRecord (buf : List Nat) (offset stringOffset j : Nat) (acc : FontMeta) : FontMeta :=
  let nameID := nameRecordID buf offset j
  let stringLength := nameRecordLen buf offset j
  let start := stringOffset + nameRecordStrOff buf offset j
  if start + stringLength ≤ buf.length then
    let nameStr := decodedNameString buf start stringLength
    if nameStr = [] then acc
    else if nameID = 1 then { acc with family := some nameStr }
    else if nameID = 4 then { acc with name := some nameStr }
    else if nameID = 5 then { acc with version := some nameStr }
    else if nameID = 0 then { acc with copyright := some nameStr }
    else acc
  else acc

/-- The `for (let j = 0; j < count; j++)` loop of `parseNameTable`; the
first argument counts the remaining iterations, the second is `j`. The
loop breaks when record `j` does not fit in the buffer. -/
def nameRecords (buf : List Nat) (offset stringOffset : Nat) : Nat → Nat → FontMeta → FontMeta
  | 0, _, acc => acc
  | k + 1, j, acc =>
    if offset + 6 + j * 12 + 12 > buf.length then acc
    else nameRecords buf offset stringOffset k (j + 1) (applyNameRecord buf offset stringOffset j acc)

/-- Model of `parseNameTable(buffer, offset, length)`. -/
def parseNameTable (buf : List Nat) (offset : Nat) (_length : Nat) : FontMeta :=
  if offset + 6 > buf.length then {}
  else
    let count := readU16BE buf (offset + 2)
    let stringOffset := offset + readU16BE buf (offset + 4)
    nameRecords buf offset stringOffset count 0 {}

/-- Model of `parseOS2Table(buffer, offset, length)`: weight at `offset+4`,
`fsSelection` bit 0 at `offset+62`, PANOSE proportion byte (slice index 3,
i.e. `offset+35`) equal to 9 sets `isMonospace = true`. -/
def parseOS2Table (buf : List Nat) (offset : Nat) (_length : Nat) : FontMeta :=
  if offset + 8 > buf.length then {}
  else
    let r1 : FontMeta := { weight := some (readU16BE buf (offset + 4)) }
    let r2 :=
      if offset + 64 ≤ buf.length then
        if readU16BE buf (offset + 62) % 2 = 1 then { r1 with style := some Style.italic }
        else { r1 with style := some Style.normal }
      else r1
    if offset + 42 ≤ buf.length then
      if (sliceB buf (offset + 32) (offset + 42)).getD 3 0 = 9 then
        { r2 with isMonospace := some true }
      else r2
    else r2

/-- Model of `parsePostTable(buffer, offset, length)`: the field `isFixedPitch` is the u32 at
`offset+12`, non-zero sets `isMonospace = true`. -/
def parsePostTable (buf : List Nat) (offset : Nat) (_length : Nat) : FontMeta :=
  if offset + 32 > buf.length then {}
  else if readU32BE buf (offset + 12) ≠ 0 then { isMonospace := some true }
  else {}

/-- Model of `buffer.toString('ascii', off, off+4)`: Node's ascii decoder masks each
byte with 0x7F. The tag is kept as the list of masked bytes. -/
def readTag (buf : List Nat) (off : Nat) : List Nat :=
  [byteAt buf off % 128, byteAt buf (off + 1) % 128,
   byteAt buf (off + 2) % 128, byteAt buf (off + 3) % 128]

/-- Tag "name" as bytes. -/
def nameTagBytes : List Nat := [110, 97, 109, 101]

/-- Tag "OS/2" as bytes. -/
def os2TagBytes : List Nat := [79, 83, 47, 50]

/-- Tag "post" as bytes. -/
def postTagBytes : List Nat := [112, 111, 115, 116]

/-- Body of one iteration of the directory loop of `parseTTFOTFFont`:
read the tag, data offset and length of entry `i` (at `12 + i*16`) and
`Object.assign` the matching decoder's result onto the accumulator. -/
def tableStep (buf : List Nat) (i : Nat) (acc : FontMeta) : FontMeta :=
  let tableOffset := 12 + i * 16
  let tag := readTag buf tableOffset
  let tableDataOffset := readU32BE buf (tableOffset + 8)
  let tableLength := readU32BE buf (tableOffset + 12)
  if tag = nameTagBytes then FontMeta.assign acc (parseNameTable buf tableDataOffset tableLength)
  else if tag = os2TagBytes then FontMeta.assign acc (parseOS2Table buf tableDataOffset tableLength)
  else if tag = postTagBytes then FontMeta.assign acc (parsePostTable buf tableDataOffset tableLength)
  else acc

/-- The `for (let i = 0; i < numTables; i++)` loop of `parseTTFOTFFont`;
first argument counts remaining iterations, second is `i`. Entry `i` lives
at `12 + i*16`; the loop breaks when the 16-byte entry does not fit. -/
def tableLoop (buf : List Nat) : Nat → Nat → FontMeta → FontMeta
  | 0, _, acc => acc
  | k + 1, i, acc =>
    if 12 + i * 16 + 16 > buf.length then acc
    else tableLoop buf k (i + 1) (tableStep buf i acc)

/-- The condition under which the OS/2 decoder at offset `off` reports a
monospace hint: the PANOSE slice is in range and its proportion byte
(slice index 3) is 9. -/
def os2MonoAt (buf : List Nat) (off : Nat) : Prop :=
  off + 42 ≤ buf.length ∧ (sliceB buf (off + 32) (off + 42)).getD 3 0 = 9

/-- The condition under which the post decoder at offset `off` reports
monospace: the table header is in range and `isFixedPitch` is non-zero. -/
def postMonoAt (buf : List Nat) (off : Nat) : Prop :=
  off + 32 ≤ buf.length ∧ readU32BE buf (off + 12) ≠ 0

/-- Directory entry `i` carries a monospace signal: it is tagged "OS/2"
and its decoded table satisfies the PANOSE condition, or it is tagged
"post" and its decoded table has non-zero `isFixedPitch`. -/
def tableEntryMonoSignal (buf : List Nat) (i : Nat) : Prop :=
  (readTag buf (12 + i * 16) = os2TagBytes ∧ os2MonoAt buf (readU32BE buf (12 + i * 16 + 8))) ∨
  (readTag buf (12 + i * 16) = postTagBytes ∧ postMonoAt buf (readU32BE buf (12 + i * 16 + 8)))

/-- Model of `parseTTFOTFFont(buffer)`: `null` below 12 bytes, otherwise loop over
`numTables` (u16 at byte 4) directory entries starting at byte 12. -/
def parseTTFOTFFont (buf : List Nat) : Option FontMeta :=
  if buf.length < 12 then none
  else some (tableLoop buf (readU16BE buf 4) 0 {})

/-- ASCII-range model of `toLowerCase` on one code unit. -/
def asciiLowerCode (c : Nat) : Nat := if 65 ≤ c ∧ c ≤ 90 then c + 32 else c

/-- ASCII-range model of `s.toLowerCase()`. -/
def asciiLower (s : Str) : Str := s.map asciiLowerCode

/-- The part of the path after the last `/` (POSIX `path.basename` for
paths that do not end in a separator). -/
def baseNamePart (p : Str) : Str := (p.reverse.takeWhile (fun c => c != 47)).reverse

/-- Node `path.extname`: from the last `.` of the basename to the end,
empty when there is no dot or the only dot is the leading dotfile dot. -/
def extname (p : Str) : Str :=
  let b := baseNamePart p
  let afterDotRev := b.reverse.takeWhile (fun c => c != 46)
  if afterDotRev.length + 1 ≤ b.length then
    if b.length = afterDotRev.length + 1 then [] else 46 :: afterDotRev.reverse
  else []

/-- Whether `s` starts with `pre` (code-unit-wise). -/
def startsWith : Str → Str → Bool
  | _, [] => true
  | [], _ :: _ => false
  | c :: cs, d :: ds => c == d && startsWith cs ds

/-- Whether `s` ends with `suffixStr`. -/
def endsWith (s suffixStr : Str) : Bool := startsWith s.reverse suffixStr.reverse

/-- Node `path.basename(p, ext)`: the basename, with `ext` stripped only
when it is non-empty, a case-sensitive suffix of the basename, and not the
whole basename. -/
def basenameExt (p ext : Str) : Str :=
  let b := baseNamePart p
  if (ext != []) && endsWith b ext && !(b == ext) then b.take (b.length - ext.length) else b

/-- The list `['.ttf', '.otf', '.ttc']` as code-unit lists. -/
def TABLE_DIR_EXTS : List Str := [[46, 116, 116, 102], [46, 111, 116, 102], [46, 116, 116, 99]]

/-- A successful `fs.stat` result. -/
structure FileInfo where
  size : Nat
  mtime : Int
deriving DecidableEq, Repr

/-- Kind of a filesystem-level failure of `stat`/`readFile`. -/
inductive FsError where
  | notFound
  | permissionDenied
  | unknown
deriving DecidableEq, Repr

/-- Outcome of `fs.statSync` + `fs.readFileSync` on one candidate path:
either a thrown filesystem error, or the stat data plus the file bytes. -/
inductive FileAccess where
  | failure (e : FsError)
  | ok (info : FileInfo) (bytes : List Nat)
deriving DecidableEq, Repr

/-- Structure `FontEntry` as the scan produces it (`name` may only be empty via a
degenerate path, in which case the aggregator rejects the entry). -/
structure FontEntry where
  name : Str
  path : Str
  format : Str
  family : Option Str := none
  weight : Option Nat := none
  style : Option Style := none
  version : Option Str := none
  copyright : Option Str := none
  isMonospace : Option Bool := none
  fileSize : Nat
  lastModified : Int
deriving DecidableEq, Repr

/-- Model of `{ ...baseMetadata, ...ttfMetadata }` in `readFontMetadataSync`. -/
def mergeEntry (fontPath ext : Str) (info : FileInfo) (m : FontMeta) : FontEntry :=
  { name := m.name.getD [], path := fontPath, format := ext.drop 1,
    family := m.family, weight := m.weight, style := m.style,
    version := m.version, copyright := m.copyright, isMonospace := m.isMonospace,
    fileSize := info.size, lastModified := info.mtime }

/-- The filename fallback: `name = family = path.basename(fontPath, ext)`. -/
def fallbackEntry (fontPath ext : Str) (info : FileInfo) : FontEntry :=
  let fname := basenameExt fontPath ext
  { name := fname, path := fontPath, format := ext.drop 1, family := some fname,
    fileSize := info.size, lastModified := info.mtime }

/-- Truthiness of `ttfMetadata && ttfMetadata.name`. -/
def nameTruthy : Option FontMeta → Bool
  | some m => m.name.getD [] != []
  | none => false

/-- Model of `readFontMetadataSync` (the async variant has identical semantics):
`null` exactly when `stat`/`readFile` throw; table parsing only for
`.ttf`/`.otf`/`.ttc`; filename fallback otherwise. -/
def readFontMetadataSync (access : FileAccess) (fontPath : Str) : Option FontEntry :=
  match access with
  | FileAccess.failure _ => none
  | FileAccess.ok info bytes =>
    let ext := asciiLower (extname fontPath)
    if TABLE_DIR_EXTS.contains ext then
      match parseTTFOTFFont bytes with
      | some m =>
        if m.name.getD [] != [] then some (mergeEntry fontPath ext info m)
        else some (fallbackEntry fontPath ext info)
      | none => some (fallbackEntry fontPath ext info)
    else some (fallbackEntry fontPath ext info)

/-- Value space of `FontError.code`. -/
inductive ErrCode where
  | FILE_NOT_FOUND
  | PERMISSION_DENIED
  | INVALID_FONT
  | PARSE_ERROR
  | UNKNOWN
deriving DecidableEq, Repr

/-- Structure `FontError`. -/
structure FontError where
  path : Str
  message : Str
  code : ErrCode
deriving DecidableEq, Repr

/-- The message "Failed to extract font metadata" as code units. -/
def failedMsg : Str :=
  [70, 97, 105, 108, 101, 100, 32, 116, 111, 32, 101, 120, 116, 114, 97, 99,
   116, 32, 102, 111, 110, 116, 32, 109, 101, 116, 97, 100, 97, 116, 97]

/-- One candidate file path together with what the filesystem does for it. -/
structure Candidate where
  path : Str
  access : FileAccess
deriving DecidableEq, Repr

/-- One iteration of the per-file loop of `getAllFontsWithResultSync`:
a truthy-named entry is kept, everything else becomes a `PARSE_ERROR`
`FontError` (`readFontMetadataSync` never throws, so the catch arm of the
source produces the same error shape). -/
def processCandidate (c : Candidate) : Sum FontEntry FontError :=
  match readFontMetadataSync c.access c.path with
  | some m =>
    if m.name != [] then Sum.inl m
    else Sum.inr { path := c.path, message := failedMsg, code := ErrCode.PARSE_ERROR }
  | none => Sum.inr { path := c.path, message := failedMsg, code := ErrCode.PARSE_ERROR }

/-- Accumulated per-file loop state: fonts, errors and the two counters. -/
structure ScanAcc where
  fonts : List FontEntry
  errors : List FontError
  filesProcessed : Nat
  filesFailed : Nat
deriving DecidableEq, Repr

/-- The whole per-file loop, preserving candidate order. -/
def scanCore : List Candidate → ScanAcc
  | [] => { fonts := [], errors := [], filesProcessed := 0, filesFailed := 0 }
  | c :: rest =>
    let r := scanCore rest
    match processCandidate c with
    | Sum.inl fe =>
      { fonts := fe :: r.fonts, errors := r.errors,
        filesProcessed := r.filesProcessed + 1, filesFailed := r.filesFailed }
    | Sum.inr er =>
      { fonts := r.fonts, errors := er :: r.errors,
        filesProcessed := r.filesProcessed + 1, filesFailed := r.filesFailed + 1 }

/-- Structure `FontScanResult.stats`. -/
structure ScanStats where
  directoriesScanned : Nat
  filesProcessed : Nat
  fontsFound : Nat
  filesFailed : Nat
  scanTimeMs : Nat
deriving DecidableEq, Repr

/-- Structure `FontScanResult`. -/
structure FontScanResult where
  fonts : List FontEntry
  errors : List FontError
  stats : ScanStats
deriving DecidableEq, Repr

/-- The module-level cache variables `fontCache` / `cacheTimestamp`. -/
structure CacheState where
  fontCache : Option (List FontEntry)
  cacheTimestamp : Int
deriving DecidableEq, Repr

/-- Constant `CACHE_DURATION` (5 minutes, in ms). -/
def CACHE_DURATION : Int := 300000

/-- The cache-hit condition of `getAllFontsWithResultSync`:
`options.useCache !== false && fontCache && (now - cacheTimestamp) < CACHE_DURATION`. -/
def servedFromCache (cache : CacheState) (now : Int) (useCache : Bool) : Bool :=
  useCache && cache.fontCache.isSome && decide (now - cache.cacheTimestamp < CACHE_DURATION)

/-- Model of `getAllFontsWithResultSync`, with the ambient state made explicit:
`cache` is the module cache, `now` is `Date.now()`, `useCache` is
`options.useCache !== false`, `directoriesScanned` is what the (external)
directory walk reports, `files` is the candidate list it produced, and
`elapsed` is the measured wall time. Returns the result and the new cache. -/
def getAllFontsWithResultSync (cache : CacheState) (now : Int) (useCache : Bool)
    (directoriesScanned : Nat) (files : List Candidate) (elapsed : Nat) :
    FontScanResult × CacheState :=
  if servedFromCache cache now useCache then
    let fc := cache.fontCache.getD []
    ({ fonts := fc, errors := [],
       stats := { directoriesScanned := 0, filesProcessed := fc.length,
                  fontsFound := fc.length, filesFailed := 0, scanTimeMs := elapsed } },
     cache)
  else
    let acc := scanCore files
    let cacheOut :=
      if useCache then { fontCache := some acc.fonts, cacheTimestamp := now } else cache
    ({ fonts := acc.fonts, errors := acc.errors,
       stats := { directoriesScanned := directoriesScanned, filesProcessed := acc.filesProcessed,
                  fontsFound := acc.fonts.length, filesFailed := acc.filesFailed,
                  scanTimeMs := elapsed } },
     cacheOut)

/-- Model of `clearFontCache()`: the cache state it leaves behind. -/
def clearFontCache : CacheState := { fontCache := none, cacheTimestamp := 0 }

/-- Model of `getCachedFontCount()`: `fontCache?.length || 0`. -/
def getCachedFontCount (cache : CacheState) : Nat := (cache.fontCache.getD []).length

/-- Model of `isCacheValid()`: `fontCache !== null && (Date.now() - cacheTimestamp) < CACHE_DURATION`. -/
def isCacheValid (cache : CacheState) (now : Int) : Bool :=
  cache.fontCache.isSome && decide (now - cache.cacheTimestamp < CACHE_DURATION)

/-- Record of `FontScanner._filters`. -/
structure Filters where
  format : Option Str := none
  weight : Option Nat := none
  monospaceOnly : Bool := false
  nameSearch : Option (Str × Bool) := none
deriving DecidableEq, Repr

/-- Model of `hay.includes(needle)`. -/
def strIncludes (needle : Str) : Str → Bool
  | [] => startsWith [] needle
  | c :: cs => startsWith (c :: cs) needle || strIncludes needle cs

/-- Model of `FontScanner._applyFilters(fonts)`: the four filters applied in
accumulation order. -/
def applyFilters (fl : Filters) (fonts : List FontEntry) : List FontEntry :=
  let f1 :=
    match fl.format with
    | some fmt => fonts.filter (fun font => asciiLower font.format == fmt)
    | none => fonts
  let f2 :=
    match fl.weight with
    | some w => f1.filter (fun font => font.weight == some w)
    | none => f1
  let f3 := if fl.monospaceOnly then f2.filter (fun font => font.isMonospace == some true) else f2
  match fl.nameSearch with
  | some (q, exact) =>
    if exact then
      f3.filter (fun font =>
        asciiLower font.name == asciiLower q ||
        (match font.family with
         | some fam => asciiLower fam == asciiLower q
         | none => false))
    else
      f3.filter (fun font =>
        strIncludes (asciiLower q) (asciiLower font.name) ||
        (match font.family with
         | some fam => strIncludes (asciiLower q) (asciiLower fam)
         | none => false))
  | none => f3

/-- Model of `FontScanner.getResult()`: run the scan, then replace only the `fonts`
list with its filtered form. -/
def getResult (fl : Filters) (cache : CacheState) (now : Int) (useCache : Bool)
    (directoriesScanned : Nat) (files : List Candidate) (elapsed : Nat) :
    FontScanResult × CacheState :=
  let p := getAllFontsWithResultSync cache now useCache directoriesScanned files elapsed
  ({ fonts := applyFilters fl p.1.fonts, errors := p.1.errors, stats := p.1.stats }, p.2)

/-- A standalone name table: two nameID-4 records, "Arial" (platform 1)
followed by "Arial MT" (platform 3), sharing one string storage at
relative offset 30. -/
def arialNameTable : List Nat :=
  [0, 0, 0, 2, 0, 30,
   0, 1, 0, 0, 0, 0, 0, 4, 0, 10, 0, 0,
   0, 3, 0, 0, 0, 0, 0, 4, 0, 16, 0, 10,
   0, 65, 0, 114, 0, 105, 0, 97, 0, 108,
   0, 65, 0, 114, 0, 105, 0, 97, 0, 108, 0, 32, 0, 77, 0, 84]

/-- A standalone name table: a nameID-4 record "Arial" followed by a
nameID-4 record whose string decodes to a single space after NUL
skipping — empty once trimmed. -/
def emptyRecordNameTable : List Nat :=
  [0, 0, 0, 2, 0, 30,
   0, 1, 0, 0, 0, 0, 0, 4, 0, 10, 0, 0,
   0, 3, 0, 0, 0, 0, 0, 4, 0, 4, 0, 10,
   0, 65, 0, 114, 0, 105, 0, 97, 0, 108,
   0, 0, 0, 32]

/-- A whole-file buffer whose table directory lists the tag "name" twice:
the first occurrence (offset 44) decodes to full name "A", the second
(offset 64) to "B". -/
def dupNameTagFont : List Nat :=
  [0, 0, 0, 0, 0, 2, 0, 0, 0, 0, 0, 0,
   110, 97, 109, 101, 0, 0, 0, 0, 0, 0, 0, 44, 0, 0, 0, 20,
   110, 97, 109, 101, 0, 0, 0, 0, 0, 0, 0, 64, 0, 0, 0, 20,
   0, 0, 0, 1, 0, 18, 0, 0, 0, 0, 0, 0, 0, 4, 0, 2, 0, 0, 0, 65,
   0, 0, 0, 1, 0, 18, 0, 0, 0, 0, 0, 0, 0, 4, 0, 2, 0, 0, 0, 66]

/-- The path "Custom-Bold.ttf" as code units. -/
def customBoldLowerPath : Str :=
  [67, 117, 115, 116, 111, 109, 45, 66, 111, 108, 100, 46, 116, 116, 102]

/-- The path "Custom-Bold.TTF" as code units. -/
def customBoldUpperPath : Str :=
  [67, 117, 115, 116, 111, 109, 45, 66, 111, 108, 100, 46, 84, 84, 70]

/-- The string "Custom-Bold" as code units. -/
def customBoldStem : Str :=
  [67, 117, 115, 116, 111, 109, 45, 66, 111, 108, 100]

/-- A whole-file buffer with one directory entry, a "post" table at
offset 28 whose `isFixedPitch` u32 (offset 40) is 1. -/
def monoFontBuf : List Nat :=
  [0, 0, 0, 0, 0, 1, 0, 0, 0, 0, 0, 0,
   112, 111, 115, 116, 0, 0, 0, 0, 0, 0, 0, 28, 0, 0, 0, 32,
   0, 0, 0, 0, 0, 0, 0, 0, 0, 0, 0, 0, 0, 0, 0, 1,
   0, 0, 0, 0, 0, 0, 0, 0, 0, 0, 0, 0, 0, 0, 0, 0]

/-- Helper: the per-file loop accounts for every candidate exactly once
and its failure counter equals the length of the error list. -/
theorem scanCore_length (files : List Candidate) :
    (scanCore files).fonts.length + (scanCore files).errors.length = files.length ∧
    (scanCore files).filesProcessed = files.length ∧
    (scanCore files).filesFailed = (scanCore files).errors.length := by
  induction files with
  | nil => simp [scanCore]
  | cons c rest ih =>
    rcases h : processCandidate c with fe | er <;> simp [scanCore, h] <;> omega

/-- Helper: one name record leaves the accumulator unchanged when its
decoded, NUL-stripped, trimmed string is empty. -/
theorem applyNameRecord_empty (buf : List Nat) (offset so j : Nat) (acc : FontMeta)
    (h : decodedNameString buf (so + nameRecordStrOff buf offset j) (nameRecordLen buf offset j) = []) :
    applyNameRecord buf offset so j acc = acc := by
  simp only [applyNameRecord]
  split_ifs <;> first | rfl | simp_all

/-- Helper: one name record leaves the accumulator unchanged when its
string range falls outside the buffer. -/
theorem applyNameRecord_oob (buf : List Nat) (offset so j : Nat) (acc : FontMeta)
    (h : buf.length < so + nameRecordStrOff buf offset j + nameRecordLen buf offset j) :
    applyNameRecord buf offset so j acc = acc := by
  simp only [applyNameRecord]
  rw [if_neg (by omega)]

/-- Helper: name records never touch `isMonospace`. -/
theorem applyNameRecord_isMono (buf : List Nat) (offset so j : Nat) (acc : FontMeta) :
    (applyNameRecord buf offset so j acc).isMonospace = acc.isMonospace := by
  simp only [applyNameRecord]
  split_ifs <;> rfl

/-- Helper: the name-record loop never touches `isMonospace`. -/
theorem nameRecords_isMono (buf : List Nat) (offset so : Nat) (k j : Nat) (acc : FontMeta) :
    (nameRecords buf offset so k j acc).isMonospace = acc.isMonospace := by
  induction k generalizing j acc with
  | zero => rfl
  | succ k ih =>
    simp only [nameRecords]
    split
    · rfl
    · rw [ih, applyNameRecord_isMono]

/-- Helper: the name-table decoder never sets `isMonospace`. -/
theorem parseNameTable_isMono (buf : List Nat) (offset len' : Nat) :
    (parseNameTable buf offset len').isMonospace = none := by
  simp only [parseNameTable]
  split
  · rfl
  · rw [nameRecords_isMono]

/-- Helper: `isMonospace` out of the OS/2 decoder is `some true` exactly
when the PANOSE slice fits and its proportion byte is 9, else `none`. -/
theorem parseOS2_isMono_eq (buf : List Nat) (off len' : Nat) :
    (parseOS2Table buf off len').isMonospace =
      if off + 42 ≤ buf.length ∧ (sliceB buf (off + 32) (off + 42)).getD 3 0 = 9
      then some true else none := by
  simp only [parseOS2Table]
  split_ifs with h8 h42 hp h42b hpb <;> simp_all <;> omega

/-- Helper: `isMonospace` out of the post decoder is `some true` exactly
when the table header fits and `isFixedPitch` is non-zero, else `none`. -/
theorem parsePost_isMono_eq (buf : List Nat) (off len' : Nat) :
    (parsePostTable buf off len').isMonospace =
      if off + 32 ≤ buf.length ∧ readU32BE buf (off + 12) ≠ 0
      then some true else none := by
  simp only [parsePostTable]
  split_ifs <;> simp_all <;> omega

/-- Helper: projection of `Object.assign` at `isMonospace`. -/
theorem assign_isMono (a b : FontMeta) :
    (FontMeta.assign a b).isMonospace = orElseOpt b.isMonospace a.isMonospace := rfl

/-- Helper: one directory-loop step can never turn `isMonospace` into
`some false`. -/
theorem tableStep_isMono_ne_false (buf : List Nat) (i : Nat) (acc : FontMeta)
    (h : acc.isMonospace ≠ some false) :
    (tableStep buf i acc).isMonospace ≠ some false := by
  simp only [tableStep]
  split_ifs with t1 t2 t3
  · rw [assign_isMono, parseNameTable_isMono]
    simpa [orElseOpt] using h
  · rw [assign_isMono, parseOS2_isMono_eq]
    split_ifs <;> simp [orElseOpt, h]
  · rw [assign_isMono, parsePost_isMono_eq]
    split_ifs <;> simp [orElseOpt, h]
  · exact h

/-- Helper: one directory-loop step yields `isMonospace = some true`
exactly when the accumulator already had it or entry `i` carries a
monospace signal (an in-range OS/2 PANOSE proportion byte 9 or an
in-range non-zero post `isFixedPitch`). -/
theorem tableStep_isMono_true_iff (buf : List Nat) (i : Nat) (acc : FontMeta) :
    (tableStep buf i acc).isMonospace = some true ↔
      (acc.isMonospace = some true ∨ tableEntryMonoSignal buf i) := by
  simp only [tableStep]
  by_cases hn : readTag buf (12 + i * 16) = nameTagBytes
  · rw [if_pos hn, assign_isMono, parseNameTable_isMono]
    simp only [orElseOpt]
    constructor
    · exact Or.inl
    · rintro (h | ⟨ht, _⟩ | ⟨ht, _⟩)
      · exact h
      · exact absurd (hn.symm.trans ht) (by decide)
      · exact absurd (hn.symm.trans ht) (by decide)
  · rw [if_neg hn]
    by_cases ho : readTag buf (12 + i * 16) = os2TagBytes
    · rw [if_pos ho, assign_isMono, parseOS2_isMono_eq]
      split_ifs with hc
      · simp only [orElseOpt]
        constructor
        · intro _
          exact Or.inr (Or.inl ⟨ho, hc⟩)
        · intro _
          trivial
      · simp only [orElseOpt]
        constructor
        · exact Or.inl
        · rintro (h | ⟨_, hcc⟩ | ⟨ht, _⟩)
          · exact h
          · exact absurd hcc hc
          · exact absurd (ho.symm.trans ht) (by decide)
    · rw [if_neg ho]
      by_cases hq : readTag buf (12 + i * 16) = postTagBytes
      · rw [if_pos hq, assign_isMono, parsePost_isMono_eq]
        split_ifs with hc
        · simp only [orElseOpt]
          constructor
          · intro _
            exact Or.inr (Or.inr ⟨hq, hc⟩)
          · intro _
            trivial
        · simp only [orElseOpt]
          constructor
          · exact Or.inl
          · rintro (h | ⟨ht, _⟩ | ⟨_, hcc⟩)
            · exact h
            · exact absurd (hq.symm.trans ht) (by decide)
            · exact absurd hcc hc
      · rw [if_neg hq]
        constructor
        · exact Or.inl
        · rintro (h | ⟨ht, _⟩ | ⟨ht, _⟩)
          · exact h
          · exact absurd ht ho
          · exact absurd ht hq

/-- Helper: the directory loop can never turn `isMonospace` into
`some false`. -/
theorem tableLoop_isMono_ne_false (buf : List Nat) (k : Nat) :
    ∀ (i : Nat) (acc : FontMeta), acc.isMonospace ≠ some false →
      (tableLoop buf k i acc).isMonospace ≠ some false := by
  induction k with
  | zero => intro i acc h; simpa [tableLoop] using h
  | succ k ih =>
    intro i acc h
    simp only [tableLoop]
    split
    · exact h
    · exact ih (i + 1) (tableStep buf i acc) (tableStep_isMono_ne_false buf i acc h)

/-- Helper: the directory loop yields `isMonospace = some true` exactly
when the accumulator already had it or some entry in the processed range
(index at least `i`, fewer than `k` steps away, fitting in the buffer)
carries a monospace signal. -/
theorem tableLoop_isMono_true_iff (buf : List Nat) (k : Nat) :
    ∀ (i : Nat) (acc : FontMeta),
      ((tableLoop buf k i acc).isMonospace = some true ↔
        (acc.isMonospace = some true ∨
         ∃ j, i ≤ j ∧ j < i + k ∧ 12 + j * 16 + 16 ≤ buf.length ∧
           tableEntryMonoSignal buf j)) := by
  induction k with
  | zero =>
    intro i acc
    simp only [tableLoop]
    constructor
    · exact Or.inl
    · rintro (h | ⟨j, h1, h2, _, _⟩)
      · exact h
      · omega
  | succ k ih =>
    intro i acc
    simp only [tableLoop]
    by_cases hb : 12 + i * 16 + 16 > buf.length
    · rw [if_pos hb]
      constructor
      · exact Or.inl
      · rintro (ha | ⟨j, hij, _, hfit, _⟩)
        · exact ha
        · exfalso
          have : 12 + i * 16 + 16 ≤ 12 + j * 16 + 16 := by
            have : i * 16 ≤ j * 16 := Nat.mul_le_mul_right 16 hij
            omega
          omega
    · rw [if_neg hb, ih (i + 1), tableStep_isMono_true_iff]
      constructor
      · rintro ((ha | hsig) | ⟨j, hij, hlt, hfit, hsig⟩)
        · exact Or.inl ha
        · exact Or.inr ⟨i, Nat.le_refl i, by omega, by omega, hsig⟩
        · exact Or.inr ⟨j, by omega, by omega, hfit, hsig⟩
      · rintro (ha | ⟨j, hij, hlt, hfit, hsig⟩)
        · exact Or.inl (Or.inl ha)
        · rcases Nat.eq_or_lt_of_le hij with rfl | hgt
          · exact Or.inl (Or.inr hsig)
          · exact Or.inr ⟨j, by omega, by omega, hfit, hsig⟩

/-- Helper: the whole table-directory parse never yields
`isMonospace = some false`. -/
theorem parseTTFOTFFont_isMono_ne_false (buf : List Nat) (m : FontMeta)
    (hp : parseTTFOTFFont buf = some m) : m.isMonospace ≠ some false := by
  by_cases hlen : buf.length < 12
  · simp [parseTTFOTFFont, hlen] at hp
  · simp only [parseTTFOTFFont, hlen, if_false, Option.some.injEq] at hp
    subst hp
    exact tableLoop_isMono_ne_false buf (readU16BE buf 4) 0 {} (by simp)

/-- Helper: the whole table-directory parse yields
`isMonospace = some true` exactly when some directory entry among the
`numTables` processed ones fits in the buffer and carries a monospace
signal. -/
theorem parseTTFOTFFont_isMono_true_iff (buf : List Nat) (m : FontMeta)
    (hp : parseTTFOTFFont buf = some m) :
    (m.isMonospace = some true ↔
      ∃ i, i < readU16BE buf 4 ∧ 12 + i * 16 + 16 ≤ buf.length ∧
        tableEntryMonoSignal buf i) := by
  by_cases hlen : buf.length < 12
  · simp [parseTTFOTFFont, hlen] at hp
  · simp only [parseTTFOTFFont, hlen, if_false, Option.some.injEq] at hp
    subst hp
    rw [tableLoop_isMono_true_iff buf (readU16BE buf 4) 0 {}]
    constructor
    · rintro (h | ⟨j, _, hlt, hfit, hsig⟩)
      · simp at h
      · exact ⟨j, by omega, hfit, hsig⟩
    · rintro ⟨j, hlt, hfit, hsig⟩
      exact Or.inr ⟨j, by omega, by omega, hfit, hsig⟩

/-- C1: in a non-cached scan each candidate path yields exactly one
`FontEntry` or exactly one `FontError`, so
`fonts.length + errors.length = candidates.length` and the stats satisfy
`fontsFound + filesFailed = filesProcessed` with
`filesProcessed = candidates.length`; a scan served from cache reports
`fontsFound = filesProcessed`, `filesFailed = 0` and
`directoriesScanned = 0`. -/
theorem c1_scan_accounting (cache : CacheState) (now : Int) (useCache : Bool)
    (dirs : Nat) (files : List Candidate) (elapsed : Nat) :
    (servedFromCache cache now useCache = false →
      (getAllFontsWithResultSync cache now useCache dirs files elapsed).1.fonts.length +
        (getAllFontsWithResultSync cache now useCache dirs files elapsed).1.errors.length =
        files.length ∧
      (getAllFontsWithResultSync cache now useCache dirs files elapsed).1.stats.fontsFound +
        (getAllFontsWithResultSync cache now useCache dirs files elapsed).1.stats.filesFailed =
        (getAllFontsWithResultSync cache now useCache dirs files elapsed).1.stats.filesProcessed ∧
      (getAllFontsWithResultSync cache now useCache dirs files elapsed).1.stats.filesProcessed =
        files.length) ∧
    (servedFromCache cache now useCache = true →
      (getAllFontsWithResultSync cache now useCache dirs files elapsed).1.stats.fontsFound =
        (getAllFontsWithResultSync cache now useCache dirs files elapsed).1.stats.filesProcessed ∧
      (getAllFontsWithResultSync cache now useCache dirs files elapsed).1.stats.filesFailed = 0 ∧
      (getAllFontsWithResultSync cache now useCache dirs files elapsed).1.stats.directoriesScanned = 0) := by
  constructor
  · intro h
    have hs := scanCore_length files
    simp only [getAllFontsWithResultSync, h, Bool.false_eq_true, if_false]
    omega
  · intro h
    simp [getAllFontsWithResultSync, h]

/-- Witness for C1 at a one-candidate failed scan and at a cache hit. -/
theorem c1_scan_accounting_witness :
    (getAllFontsWithResultSync { fontCache := none, cacheTimestamp := 0 } 0 true 0
        [{ path := [97], access := FileAccess.failure FsError.notFound }] 0).1.fonts.length +
      (getAllFontsWithResultSync { fontCache := none, cacheTimestamp := 0 } 0 true 0
        [{ path := [97], access := FileAccess.failure FsError.notFound }] 0).1.errors.length = 1 ∧
    (getAllFontsWithResultSync { fontCache := some [], cacheTimestamp := 0 } 0 true 0 [] 0).1.stats.filesFailed = 0 := by
  constructor
  · exact ((c1_scan_accounting { fontCache := none, cacheTimestamp := 0 } 0 true 0
      [{ path := [97], access := FileAccess.failure FsError.notFound }] 0).1 (by decide)).1
  · exact ((c1_scan_accounting { fontCache := some [], cacheTimestamp := 0 } 0 true 0 [] 0).2 (by decide)).2.1

/-- C2: a buffer shorter than 12 bytes makes the table-directory parser
return the empty result (and, being a total function, it never raises);
from 12 bytes on it always returns a result; and as soon as the 16-byte
directory entry at index `i` would exceed the buffer length, the
directory loop stops and returns exactly the data collected so far. -/
theorem c2_truncation_tolerance (buf : List Nat) (k i : Nat) (acc : FontMeta) :
    (buf.length < 12 → parseTTFOTFFont buf = none) ∧
    (12 ≤ buf.length → (parseTTFOTFFont buf).isSome = true) ∧
    (buf.length < 12 + i * 16 + 16 → tableLoop buf k i acc = acc) := by
  refine ⟨fun h => ?_, fun h => ?_, fun h => ?_⟩
  · simp [parseTTFOTFFont, h]
  · simp [parseTTFOTFFont, Nat.not_lt.mpr h]
  · cases k with
    | zero => rfl
    | succ k =>
      simp only [tableLoop]
      rw [if_pos (by omega)]

/-- Witness for C2 at a 5-byte buffer and a 12-byte buffer. -/
theorem c2_truncation_tolerance_witness :
    parseTTFOTFFont (List.replicate 5 0) = none ∧
    (parseTTFOTFFont (List.replicate 12 0)).isSome = true ∧
    tableLoop (List.replicate 5 0) 3 0 {} = {} := by
  refine ⟨(c2_truncation_tolerance (List.replicate 5 0) 3 0 {}).1 (by decide),
          (c2_truncation_tolerance (List.replicate 12 0) 3 0 {}).2.1 (by decide),
          (c2_truncation_tolerance (List.replicate 5 0) 3 0 {}).2.2 (by decide)⟩

/-- C3: a name record with an in-range, non-empty decoded string updates
exactly the field its `nameID` selects (`0 → copyright`, `1 → family`,
`4 → name`, `5 → version`); any other `nameID`, or an out-of-range string,
leaves the result untouched; and with two nameID-4 records "Arial" then
"Arial MT" in on-disk order the later record wins, so the decoded full
name is "Arial MT". -/
theorem c3_nameid_mapping (buf : List Nat) (offset so j : Nat) (acc : FontMeta) :
    (so + nameRecordStrOff buf offset j + nameRecordLen buf offset j ≤ buf.length →
      decodedNameString buf (so + nameRecordStrOff buf offset j) (nameRecordLen buf offset j) ≠ [] →
      applyNameRecord buf offset so j acc =
        (if nameRecordID buf offset j = 0 then
          { acc with copyright := some (decodedNameString buf
              (so + nameRecordStrOff buf offset j) (nameRecordLen buf offset j)) }
         else if nameRecordID buf offset j = 1 then
          { acc with family := some (decodedNameString buf
              (so + nameRecordStrOff buf offset j) (nameRecordLen buf offset j)) }
         else if nameRecordID buf offset j = 4 then
          { acc with name := some (decodedNameString buf
              (so + nameRecordStrOff buf offset j) (nameRecordLen buf offset j)) }
         else if nameRecordID buf offset j = 5 then
          { acc with version := some (decodedNameString buf
              (so + nameRecordStrOff buf offset j) (nameRecordLen buf offset j)) }
         else acc)) ∧
    (nameRecordID buf offset j ∉ ([0, 1, 4, 5] : List Nat) →
      applyNameRecord buf offset so j acc = acc) ∧
    (buf.length < so + nameRecordStrOff buf offset j + nameRecordLen buf offset j →
      applyNameRecord buf offset so j acc = acc) ∧
    (parseNameTable arialNameTable 0 0).name = some [65, 114, 105, 97, 108, 32, 77, 84] := by
  refine ⟨fun hb hne => ?_, fun hid => ?_, fun hb => applyNameRecord_oob buf offset so j acc hb, by decide⟩
  · simp only [applyNameRecord]
    rw [if_pos hb, if_neg hne]
    by_cases h0 : nameRecordID buf offset j = 0
    · simp [h0]
    · by_cases h1 : nameRecordID buf offset j = 1
      · simp [h1]
      · by_cases h4 : nameRecordID buf offset j = 4
        · simp [h4, h0]
        · by_cases h5 : nameRecordID buf offset j = 5
          · simp [h5, h0]
          · simp [h0, h1, h4, h5]
  · simp only [List.mem_cons, List.mem_singleton] at hid
    push_neg at hid
    obtain ⟨h0, h1, h4, h5⟩ := hid
    simp only [applyNameRecord]
    split_ifs <;> simp_all

/-- Witness for C3 at the first record of the two-record Arial table. -/
theorem c3_nameid_mapping_witness :
    applyNameRecord arialNameTable 0 30 0 {} = { name := some [65, 114, 105, 97, 108] } := by
  have h := (c3_nameid_mapping arialNameTable 0 30 0 {}).1 (by decide) (by decide)
  rw [h]
  decide

/-- C10: a name record whose string decodes (after UTF-16BE decoding, NUL
stripping and trimming) to the empty string never assigns or overwrites a
field; in particular a later empty-decoding nameID-4 record leaves an
earlier non-empty full name in place, as on the concrete two-record
table where the result stays "Arial". -/
theorem c10_empty_decode_skip (buf : List Nat) (offset so j : Nat) (acc : FontMeta) :
    (decodedNameString buf (so + nameRecordStrOff buf offset j) (nameRecordLen buf offset j) = [] →
      applyNameRecord buf offset so j acc = acc) ∧
    (parseNameTable emptyRecordNameTable 0 0).name = some [65, 114, 105, 97, 108] := by
  exact ⟨fun h => applyNameRecord_empty buf offset so j acc h, by decide⟩

/-- Witness for C10 at the empty-decoding second record of the concrete
table, starting from an accumulator that already holds a name. -/
theorem c10_empty_decode_skip_witness :
    applyNameRecord emptyRecordNameTable 0 30 1 { name := some [65] } = { name := some [65] } :=
  (c10_empty_decode_skip emptyRecordNameTable 0 30 1 { name := some [65] }).1 (by decide)

/-- C4: the decoded file's merged `isMonospace` is `some true` if and
only if some processed directory entry is an OS/2 table whose in-range
PANOSE proportion byte (byte index 3) equals 9 or a post table whose
in-range `isFixedPitch` u32 is non-zero; when neither signal is present
the field is absent (`none`), and neither the two decoders nor the whole
parse ever produce `some false`. The per-decoder conjuncts characterise
each individual signal exactly. -/
theorem c4_monospace_iff (buf : List Nat) (off len' : Nat) (m : FontMeta) :
    ((parseOS2Table buf off len').isMonospace = some true ↔
      (off + 42 ≤ buf.length ∧ (sliceB buf (off + 32) (off + 42)).getD 3 0 = 9)) ∧
    ((parsePostTable buf off len').isMonospace = some true ↔
      (off + 32 ≤ buf.length ∧ readU32BE buf (off + 12) ≠ 0)) ∧
    ((parseOS2Table buf off len').isMonospace ≠ some false) ∧
    ((parsePostTable buf off len').isMonospace ≠ some false) ∧
    (parseTTFOTFFont buf = some m → m.isMonospace ≠ some false) ∧
    (parseTTFOTFFont buf = some m →
      (m.isMonospace = some true ↔
        ∃ i, i < readU16BE buf 4 ∧ 12 + i * 16 + 16 ≤ buf.length ∧
          tableEntryMonoSignal buf i)) ∧
    (parseTTFOTFFont buf = some m →
      ¬ (∃ i, i < readU16BE buf 4 ∧ 12 + i * 16 + 16 ≤ buf.length ∧
          tableEntryMonoSignal buf i) →
      m.isMonospace = none) := by
  refine ⟨?_, ?_, ?_, ?_, fun hp => parseTTFOTFFont_isMono_ne_false buf m hp,
          fun hp => parseTTFOTFFont_isMono_true_iff buf m hp, fun hp hno => ?_⟩
  · rw [parseOS2_isMono_eq]
    split_ifs with hc
    · exact iff_of_true rfl hc
    · exact iff_of_false (by simp) hc
  · rw [parsePost_isMono_eq]
    split_ifs with hc
    · exact iff_of_true rfl hc
    · exact iff_of_false (by simp) hc
  · rw [parseOS2_isMono_eq]
    split_ifs <;> simp
  · rw [parsePost_isMono_eq]
    split_ifs <;> simp
  · cases hm : m.isMonospace with
    | none => rfl
    | some b =>
      exfalso
      cases b with
      | false => exact parseTTFOTFFont_isMono_ne_false buf m hp hm
      | true => exact hno ((parseTTFOTFFont_isMono_true_iff buf m hp).mp hm)

/-- Witness for C4: a whole-file buffer with one post table whose
`isFixedPitch` is 1 parses to merged `isMonospace = some true` and
satisfies the existential signal; plus a PANOSE buffer with proportion
byte 9, a post table with non-zero `isFixedPitch`, and the never-false
fact on a minimal whole-file parse. -/
theorem c4_monospace_iff_witness :
    parseTTFOTFFont monoFontBuf = some { isMonospace := some true } ∧
    (∃ i, i < readU16BE monoFontBuf 4 ∧ 12 + i * 16 + 16 ≤ monoFontBuf.length ∧
      tableEntryMonoSignal monoFontBuf i) ∧
    (parseOS2Table ((List.replicate 35 0) ++ [9] ++ List.replicate 6 0) 0 0).isMonospace = some true ∧
    (parsePostTable ((List.replicate 12 0) ++ [0, 0, 0, 1] ++ List.replicate 16 0) 0 0).isMonospace = some true ∧
    ({} : FontMeta).isMonospace ≠ some false := by
  refine ⟨by decide,
          ((c4_monospace_iff monoFontBuf 0 0 { isMonospace := some true }).2.2.2.2.2.1 (by decide)).mp rfl,
          ((c4_monospace_iff ((List.replicate 35 0) ++ [9] ++ List.replicate 6 0) 0 0 {}).1).mpr (by decide),
          ((c4_monospace_iff ((List.replicate 12 0) ++ [0, 0, 0, 1] ++ List.replicate 16 0) 0 0 {}).2.1).mpr (by decide),
          (c4_monospace_iff (List.replicate 12 0) 0 0 {}).2.2.2.2.1 (by decide)⟩

/-- C5 counterexample: a readable candidate named "Custom-Bold.TTF" whose
bytes yield no parseable name falls back to `name = family =
"Custom-Bold.TTF"` — not the filename without its extension — because the
lowercased extension ".ttf" is stripped case-sensitively and does not
match the actual suffix ".TTF". -/
theorem c5_counterexample :
    readFontMetadataSync (FileAccess.ok { size := 100, mtime := 0 } []) customBoldUpperPath =
      some { name := customBoldUpperPath, path := customBoldUpperPath,
             format := [116, 116, 102], family := some customBoldUpperPath,
             fileSize := 100, lastModified := 0 } ∧
    customBoldUpperPath ≠ customBoldStem := by
  constructor
  · decide
  · decide

/-- C5 amended: synthesis fails only on an I/O-level failure and always
returns an entry for a stat-and-readable file; when the extension is not a
table-directory format, or table decoding yields no usable name, the
entry has `name = family = basename(path, ext)` where `ext` is the
lowercased extension, stripped only if the filename ends in it
case-sensitively — so "Custom-Bold.ttf" without a parseable name table
yields `name = family = "Custom-Bold"`, while an uppercase-extension file
keeps its full filename. -/
theorem c5_amended_fallback (e : FsError) (info : FileInfo) (bytes p : Str) :
    (readFontMetadataSync (FileAccess.failure e) p = none) ∧
    ((readFontMetadataSync (FileAccess.ok info bytes) p).isSome = true) ∧
    (TABLE_DIR_EXTS.contains (asciiLower (extname p)) = false →
      readFontMetadataSync (FileAccess.ok info bytes) p =
        some (fallbackEntry p (asciiLower (extname p)) info)) ∧
    (nameTruthy (parseTTFOTFFont bytes) = false →
      readFontMetadataSync (FileAccess.ok info bytes) p =
        some (fallbackEntry p (asciiLower (extname p)) info)) ∧
    ((fallbackEntry p (asciiLower (extname p)) info).name =
      basenameExt p (asciiLower (extname p)) ∧
     (fallbackEntry p (asciiLower (extname p)) info).family =
      some (basenameExt p (asciiLower (extname p)))) ∧
    (readFontMetadataSync (FileAccess.ok { size := 100, mtime := 0 } []) customBoldLowerPath =
      some { name := customBoldStem, path := customBoldLowerPath, format := [116, 116, 102],
             family := some customBoldStem, fileSize := 100, lastModified := 0 }) := by
  refine ⟨rfl, ?_, fun h => ?_, fun h => ?_, ⟨rfl, rfl⟩, by decide⟩
  · simp only [readFontMetadataSync]
    by_cases hc : TABLE_DIR_EXTS.contains (asciiLower (extname p))
    · rw [if_pos hc]
      rcases hm : parseTTFOTFFont bytes with _ | m
      · simp only [hm]
        rfl
      · simp only [hm]
        split_ifs <;> rfl
    · rw [if_neg hc]
      rfl
  · simp only [readFontMetadataSync]
    rw [if_neg (by rw [h]; simp)]
  · simp only [readFontMetadataSync]
    by_cases hc : TABLE_DIR_EXTS.contains (asciiLower (extname p))
    · rw [if_pos hc]
      rcases hm : parseTTFOTFFont bytes with _ | m
      · simp only [hm]
      · rw [hm] at h
        simp only [nameTruthy] at h
        simp only [hm]
        rw [if_neg (by simp [h])]
    · rw [if_neg hc]

/-- Witness for C5 amended: a non-table extension and an unparseable
table-format file both take the filename fallback. -/
theorem c5_amended_fallback_witness :
    readFontMetadataSync (FileAccess.ok { size := 1, mtime := 0 } []) [97] =
      some (fallbackEntry [97] (asciiLower (extname [97])) { size := 1, mtime := 0 }) ∧
    readFontMetadataSync (FileAccess.ok { size := 1, mtime := 0 } []) customBoldLowerPath =
      some (fallbackEntry customBoldLowerPath (asciiLower (extname customBoldLowerPath)) { size := 1, mtime := 0 }) := by
  refine ⟨(c5_amended_fallback FsError.unknown { size := 1, mtime := 0 } [] [97]).2.2.1 (by decide),
          (c5_amended_fallback FsError.unknown { size := 1, mtime := 0 } [] customBoldLowerPath).2.2.2.1 (by decide)⟩

/-- C6 counterexample: a scan over one candidate that fails at the
filesystem level (file not found) records a `FontError` with code
`PARSE_ERROR`, which is none of `FILE_NOT_FOUND`, `PERMISSION_DENIED`,
`UNKNOWN`. -/
theorem c6_counterexample :
    (getAllFontsWithResultSync { fontCache := none, cacheTimestamp := 0 } 0 false 0
        [{ path := [97, 46, 116, 116, 102], access := FileAccess.failure FsError.notFound }] 0).1.errors =
      [{ path := [97, 46, 116, 116, 102], message := failedMsg, code := ErrCode.PARSE_ERROR }] ∧
    ErrCode.PARSE_ERROR ≠ ErrCode.FILE_NOT_FOUND ∧
    ErrCode.PARSE_ERROR ≠ ErrCode.PERMISSION_DENIED ∧
    ErrCode.PARSE_ERROR ≠ ErrCode.UNKNOWN := by
  refine ⟨by decide, by decide, by decide, by decide⟩

/-- C6 amended: every candidate whose stat/read fails at the filesystem
level — whatever the failure kind — is recorded as a `FontError` with
code `PARSE_ERROR` and message "Failed to extract font metadata"; the
declared codes `FILE_NOT_FOUND`, `PERMISSION_DENIED` and `UNKNOWN` are
never produced by the scan. -/
theorem c6_amended_fs_failure (c : Candidate) (e : FsError) (h : c.access = FileAccess.failure e) :
    processCandidate c = Sum.inr { path := c.path, message := failedMsg, code := ErrCode.PARSE_ERROR } := by
  simp [processCandidate, readFontMetadataSync, h]

/-- Witness for C6 amended at a permission-denied candidate. -/
theorem c6_amended_fs_failure_witness :
    processCandidate { path := [97], access := FileAccess.failure FsError.permissionDenied } =
      Sum.inr { path := [97], message := failedMsg, code := ErrCode.PARSE_ERROR } :=
  c6_amended_fs_failure { path := [97], access := FileAccess.failure FsError.permissionDenied }
    FsError.permissionDenied rfl

/-- C7 counterexample: in a buffer whose directory lists the tag "name"
twice ("A" first, "B" second), the first occurrence alone decodes to "A"
but the whole parse returns "B" — the data of the first occurrence is not
kept. -/
theorem c7_counterexample :
    (parseNameTable dupNameTagFont 44 20).name = some [65] ∧
    (parseNameTable dupNameTagFont 64 20).name = some [66] ∧
    parseTTFOTFFont dupNameTagFont = some { name := some [66] } ∧
    some ([66] : Str) ≠ some [65] := by
  refine ⟨by decide, by decide, by decide, by decide⟩

/-- C7 amended: duplicate table tags are not deduplicated — every
directory entry is processed in order and `Object.assign` merging makes a
field produced by a later occurrence overwrite the earlier one (fields
the later parse does not produce are kept), so on the concrete
duplicate-"name" buffer the last occurrence wins and the full name is
"B". -/
theorem c7_amended_last_wins (a b : FontMeta) (s : Str) :
    (b.name = some s → (FontMeta.assign a b).name = some s) ∧
    (b.name = none → (FontMeta.assign a b).name = a.name) ∧
    parseTTFOTFFont dupNameTagFont = some { name := some [66] } := by
  refine ⟨fun h => ?_, fun h => ?_, by decide⟩
  · simp [FontMeta.assign, h, orElseOpt]
  · simp [FontMeta.assign, h, orElseOpt]

/-- Witness for C7 amended: a later-produced name overwrites. -/
theorem c7_amended_last_wins_witness :
    (FontMeta.assign { name := some [65] } { name := some [66] }).name = some [66] :=
  (c7_amended_last_wins { name := some [65] } { name := some [66] } [66]).1 rfl

/-- C8: after a caching scan that was not served from cache stores its
font list, the new cache holds exactly that list with timestamp `now`,
is valid, counts its length, and any subsequent cached read within the
TTL returns the same list; once `TTL = 300000` ms have elapsed the cache
reports invalid; and after `clearFontCache` the cache reports invalid
with count 0. -/
theorem c8_cache_roundtrip (cache : CacheState) (now : Int) (dirs : Nat)
    (files : List Candidate) (elapsed : Nat)
    (hmiss : servedFromCache cache now true = false) :
    ((getAllFontsWithResultSync cache now true dirs files elapsed).2.fontCache =
       some (getAllFontsWithResultSync cache now true dirs files elapsed).1.fonts ∧
     (getAllFontsWithResultSync cache now true dirs files elapsed).2.cacheTimestamp = now) ∧
    isCacheValid (getAllFontsWithResultSync cache now true dirs files elapsed).2 now = true ∧
    getCachedFontCount (getAllFontsWithResultSync cache now true dirs files elapsed).2 =
      (getAllFontsWithResultSync cache now true dirs files elapsed).1.fonts.length ∧
    (∀ (now2 : Int) (dirs2 : Nat) (files2 : List Candidate) (e2 : Nat),
      now2 - now < CACHE_DURATION →
      (getAllFontsWithResultSync (getAllFontsWithResultSync cache now true dirs files elapsed).2
          now2 true dirs2 files2 e2).1.fonts =
        (getAllFontsWithResultSync cache now true dirs files elapsed).1.fonts) ∧
    (∀ t : Int, CACHE_DURATION ≤ t - now →
      isCacheValid (getAllFontsWithResultSync cache now true dirs files elapsed).2 t = false) ∧
    (∀ t : Int, isCacheValid clearFontCache t = false) ∧
    getCachedFontCount clearFontCache = 0 := by
  refine ⟨⟨?_, ?_⟩, ?_, ?_, ?_, ?_, ?_, ?_⟩
  · simp [getAllFontsWithResultSync, hmiss]
  · simp [getAllFontsWithResultSync, hmiss]
  · simp [getAllFontsWithResultSync, hmiss, isCacheValid, CACHE_DURATION]
  · simp [getAllFontsWithResultSync, hmiss, getCachedFontCount]
  · intro now2 dirs2 files2 e2 h2
    simp only [getAllFontsWithResultSync, hmiss, Bool.false_eq_true, if_false, if_true]
    have hhit : servedFromCache
        { fontCache := some (scanCore files).fonts, cacheTimestamp := now } now2 true = true := by
      simp [servedFromCache, h2]
    simp [getAllFontsWithResultSync, hhit]
  · intro t ht
    simp [getAllFontsWithResultSync, hmiss, isCacheValid,
      show ¬(t - now < CACHE_DURATION) by omega]
  · intro t
    simp [isCacheValid, clearFontCache]
  · rfl

/-- Witness for C8 starting from the empty cache at time 0. -/
theorem c8_cache_roundtrip_witness :
    isCacheValid (getAllFontsWithResultSync { fontCache := none, cacheTimestamp := 0 } 0 true 0 [] 0).2 0 = true ∧
    isCacheValid (getAllFontsWithResultSync { fontCache := none, cacheTimestamp := 0 } 0 true 0 [] 0).2 300000 = false := by
  have h := c8_cache_roundtrip { fontCache := none, cacheTimestamp := 0 } 0 0 [] 0 (by decide)
  exact ⟨h.2.1, h.2.2.2.2.1 300000 (by decide)⟩

/-- C9: `getResult` filters only the `fonts` list — the `errors` list,
every stats counter and the cache state are exactly those of the
unfiltered scan — so after filtering, `stats.fontsFound` can exceed the
length of the returned fonts list, as on the concrete one-candidate scan
filtered by weight 700. -/
theorem c9_filter_frame :
    (∀ (fl : Filters) (cache : CacheState) (now : Int) (useCache : Bool)
       (dirs : Nat) (files : List Candidate) (elapsed : Nat),
      (getResult fl cache now useCache dirs files elapsed).1.errors =
        (getAllFontsWithResultSync cache now useCache dirs files elapsed).1.errors ∧
      (getResult fl cache now useCache dirs files elapsed).1.stats =
        (getAllFontsWithResultSync cache now useCache dirs files elapsed).1.stats ∧
      (getResult fl cache now useCache dirs files elapsed).1.fonts =
        applyFilters fl (getAllFontsWithResultSync cache now useCache dirs files elapsed).1.fonts ∧
      (getResult fl cache now useCache dirs files elapsed).2 =
        (getAllFontsWithResultSync cache now useCache dirs files elapsed).2) ∧
    ((getResult { weight := some 700 } { fontCache := none, cacheTimestamp := 0 } 0 false 0
        [{ path := [97, 46, 119, 111, 102, 102], access := FileAccess.ok { size := 10, mtime := 0 } [] }] 0).1.fonts.length <
     (getResult { weight := some 700 } { fontCache := none, cacheTimestamp := 0 } 0 false 0
        [{ path := [97, 46, 119, 111, 102, 102], access := FileAccess.ok { size := 10, mtime := 0 } [] }] 0).1.stats.fontsFound) := by
  exact ⟨fun fl cache now useCache dirs files elapsed => ⟨rfl, rfl, rfl, rfl⟩, by decide⟩
